import Mathlib

/-!
Verification development for the QuantConnect short-put trading repository.

The Python sources are embedded shallowly:
* `float` values become `Rat` (floating-point literals such as `0.2` are read
  as the exact rationals they denote in the source text);
* fallible code (Python `ZeroDivisionError`) becomes `Option`;
* `int(x)` truncation toward zero becomes `pyInt`;
* `numpy.std` comparisons of a (nonnegative) standard deviation against a
  bound `b` are encoded exactly on the variance side: `sqrt v > b ↔ b < 0 ∨
  b² < v` and `sqrt v < b ↔ 0 < b ∧ v < b²`; theorems that talk about the
  standard deviation itself use `Real.sqrt`;
* Python dicts keyed by strings become association lists with in-place
  upsert (`dictInsert`), which preserves first-insertion key order exactly
  as CPython dicts do;
* Python's stable `list.sort(key=..., reverse=True)` becomes the stable
  descending insertion sort `sortDesc`.

Messages are reproduced structurally; Python's fixed-precision numeral
formatting (`f"{x:.3f}"`) is abstracted by exact rational rendering, which no
claim under verification depends on.
-/

namespace QC

/-! ### Shared numeric helpers -/

/-- Python `int(x)`: truncation toward zero. -/
def pyInt (q : Rat) : Int := if q < 0 then q.ceil else q.floor

/-- Arithmetic mean of a list (only used on nonempty lists). -/
def listMean (l : List Rat) : Rat := l.sum / (l.length : Rat)

/-- Population variance, as computed by `numpy.std(l) ** 2` (ddof = 0). -/
def popVar (l : List Rat) : Rat :=
  ((l.map fun x => (x - listMean l) ^ 2).sum) / (l.length : Rat)

/-- Exact encoding of `sqrt v > b` for `v ≥ 0`. -/
def sqrtGT (v b : Rat) : Bool := decide (b < 0) || decide (b * b < v)

/-- Exact encoding of `sqrt v < b` for `v ≥ 0`. -/
def sqrtLT (v b : Rat) : Bool := decide (0 < b) && decide (v < b * b)

/-! ### Trading criteria (src/shared/utils/trading_criteria.py)

`CriteriaResult`, `CriteriaEvaluation`, `TradingContext` and the six
criterion classes, embedded from the source.  The `details` dictionary of
`CriteriaEvaluation` is a diagnostic payload never read by any control flow
and is omitted.  A criterion's `evaluate` returns `none` exactly where the
Python method raises `ZeroDivisionError` (a pass-branch score division with
zero denominator). -/

inductive CriteriaResult where
  | pass
  | fail
  | warning
deriving DecidableEq, Repr

structure CriteriaEvaluation where
  criterion_name : String
  result : CriteriaResult
  score : Rat
  message : String
deriving DecidableEq, Repr

structure TradingContext where
  delta : Rat := 0
  dte : Int := 0
  strike : Rat := 0
  underlying_price : Rat := 0
  volatility : Rat := 0
  market_regime : String := "unknown"
  rsi : Rat := 50
  trend_direction : String := "neutral"
  trend_strength : Rat := 1/2
  contract : Option Unit := none
  timestamp : Option String := none
deriving DecidableEq, Repr

/-- `TradingContext.validate`, line for line: every `errors.append` becomes a
conditional singleton, concatenated in source order. -/
def TradingContext.validate (ctx : TradingContext) : List String :=
  (if ctx.delta = 0 then ["Delta is required"] else []) ++
  (if ctx.dte = 0 then ["DTE is required"] else []) ++
  (if ctx.underlying_price = 0 then ["Underlying price is required"] else []) ++
  (if ctx.strike = 0 then ["Strike price is required"] else []) ++
  (if ¬ (0 ≤ ctx.delta ∧ ctx.delta ≤ 1) then ["Delta must be between 0.0 and 1.0"] else []) ++
  (if ctx.dte < 0 then ["DTE must be non-negative"] else []) ++
  (if ctx.underlying_price < 0 then ["Underlying price must be non-negative"] else []) ++
  (if ctx.strike < 0 then ["Strike price must be non-negative"] else []) ++
  (if ¬ (0 ≤ ctx.volatility ∧ ctx.volatility ≤ 2) then ["Volatility must be between 0.0 and 2.0"] else []) ++
  (if ¬ (0 ≤ ctx.rsi ∧ ctx.rsi ≤ 100) then ["RSI must be between 0.0 and 100.0"] else []) ++
  (if ¬ (0 ≤ ctx.trend_strength ∧ ctx.trend_strength ≤ 1) then ["Trend strength must be between 0.0 and 1.0"] else [])

/-- Python `hasattr(context, field) and getattr(context, field) is not None`.
The nine plain dataclass fields always exist and are never `None`; the two
optional fields are present when not `None`; any other name fails
`hasattr`. -/
def TradingContext.fieldPresent (ctx : TradingContext) (f : String) : Bool :=
  if f = "delta" ∨ f = "dte" ∨ f = "strike" ∨ f = "underlying_price" ∨
     f = "volatility" ∨ f = "market_regime" ∨ f = "rsi" ∨
     f = "trend_direction" ∨ f = "trend_strength" then true
  else if f = "contract" then ctx.contract.isSome
  else if f = "timestamp" then ctx.timestamp.isSome
  else false

/-- The six `TradingCriterion` subclasses as a closed variant set, each with
its constructor parameters and weight. -/
inductive TradingCriterion where
  | deltaCriterion (target_range : Rat × Rat) (weight : Rat)
  | marketRegimeCriterion (allowed_regimes : List String) (weight : Rat)
  | volatilityCriterion (max_volatility : Rat) (weight : Rat)
  | dteCriterion (min_dte max_dte : Int) (weight : Rat)
  | rsiCriterion (oversold overbought : Rat) (weight : Rat)
  | trendCriterion (allowed_directions : List String) (weight : Rat)
deriving DecidableEq, Repr

namespace TradingCriterion

def name : TradingCriterion → String
  | deltaCriterion _ _ => "Delta"
  | marketRegimeCriterion _ _ => "MarketRegime"
  | volatilityCriterion _ _ => "Volatility"
  | dteCriterion _ _ _ => "DTE"
  | rsiCriterion _ _ _ => "RSI"
  | trendCriterion _ _ => "Trend"

def weight : TradingCriterion → Rat
  | deltaCriterion _ w => w
  | marketRegimeCriterion _ w => w
  | volatilityCriterion _ w => w
  | dteCriterion _ _ w => w
  | rsiCriterion _ _ w => w
  | trendCriterion _ w => w

def get_required_fields : TradingCriterion → List String
  | deltaCriterion _ _ => ["delta"]
  | marketRegimeCriterion _ _ => ["market_regime"]
  | volatilityCriterion _ _ => ["volatility"]
  | dteCriterion _ _ _ => ["dte"]
  | rsiCriterion _ _ _ => ["rsi"]
  | trendCriterion _ _ => ["trend_direction", "trend_strength"]

/-- `evaluate` of each criterion subclass.  `none` marks the inputs on which
the Python code raises `ZeroDivisionError` (pass branch with a zero scoring
denominator); every other path returns the evaluation the source builds. -/
def evaluate (c : TradingCriterion) (ctx : TradingContext) : Option CriteriaEvaluation :=
  match c with
  | deltaCriterion target_range _ =>
    let delta_abs := |ctx.delta|
    let min_delta := target_range.1
    let max_delta := target_range.2
    if min_delta ≤ delta_abs ∧ delta_abs ≤ max_delta then
      let target_mid := (min_delta + max_delta) / 2
      let distance := |delta_abs - target_mid|
      let max_distance := (max_delta - min_delta) / 2
      if max_distance = 0 then none
      else some
        { criterion_name := "Delta", result := .pass,
          score := max 0 (1 - distance / max_distance),
          message := "Delta " ++ toString delta_abs ++ " within range " ++
            toString min_delta ++ "-" ++ toString max_delta }
    else some
      { criterion_name := "Delta", result := .fail, score := 0,
        message := "Delta " ++ toString delta_abs ++ " outside range " ++
          toString min_delta ++ "-" ++ toString max_delta }
  | marketRegimeCriterion allowed_regimes _ =>
    if ctx.market_regime ∈ allowed_regimes then some
      { criterion_name := "MarketRegime", result := .pass, score := 1,
        message := "Market regime " ++ ctx.market_regime ++ " is acceptable" }
    else some
      { criterion_name := "MarketRegime", result := .fail, score := 0,
        message := "Market regime " ++ ctx.market_regime ++ " not in allowed list" }
  | volatilityCriterion max_volatility _ =>
    if ctx.volatility ≤ max_volatility then
      if max_volatility = 0 then none
      else some
        { criterion_name := "Volatility", result := .pass,
          score := max 0 (1 - ctx.volatility / max_volatility),
          message := "Volatility " ++ toString ctx.volatility ++ " below threshold " ++
            toString max_volatility }
    else some
      { criterion_name := "Volatility", result := .fail, score := 0,
        message := "Volatility " ++ toString ctx.volatility ++ " above threshold " ++
          toString max_volatility }
  | dteCriterion min_dte max_dte _ =>
    if min_dte ≤ ctx.dte ∧ ctx.dte ≤ max_dte then
      let target_dte := ((min_dte : Rat) + (max_dte : Rat)) / 2
      let distance := |(ctx.dte : Rat) - target_dte|
      let max_distance := ((max_dte : Rat) - (min_dte : Rat)) / 2
      if max_distance = 0 then none
      else some
        { criterion_name := "DTE", result := .pass,
          score := max 0 (1 - distance / max_distance),
          message := "DTE " ++ toString ctx.dte ++ " within range " ++
            toString min_dte ++ "-" ++ toString max_dte }
    else some
      { criterion_name := "DTE", result := .fail, score := 0,
        message := "DTE " ++ toString ctx.dte ++ " outside range " ++
          toString min_dte ++ "-" ++ toString max_dte }
  | rsiCriterion oversold overbought _ =>
    if oversold ≤ ctx.rsi ∧ ctx.rsi ≤ overbought then
      let distance_from_center := |ctx.rsi - 50|
      some
        { criterion_name := "RSI", result := .pass,
          score := max 0 (1 - distance_from_center / 50),
          message := "RSI " ++ toString ctx.rsi ++ " in acceptable range " ++
            toString oversold ++ "-" ++ toString overbought }
    else some
      { criterion_name := "RSI", result := .fail, score := 0,
        message := "RSI " ++ toString ctx.rsi ++ " outside range " ++
          toString oversold ++ "-" ++ toString overbought }
  | trendCriterion allowed_directions _ =>
    if ctx.trend_direction ∈ allowed_directions then some
      { criterion_name := "Trend", result := .pass, score := ctx.trend_strength,
        message := "Trend " ++ ctx.trend_direction ++ " is acceptable with strength " ++
          toString ctx.trend_strength }
    else some
      { criterion_name := "Trend", result := .fail, score := 0,
        message := "Trend " ++ ctx.trend_direction ++ " not in allowed directions" }

end TradingCriterion

/-! ### CriteriaManager (src/shared/utils/trading_criteria.py, lines 370-483) -/

/-- CPython dict assignment `d[k] = v`: update in place if the key exists
(keeping its original position), else append at the end. -/
def dictInsert (k : String) (v : CriteriaEvaluation) :
    List (String × CriteriaEvaluation) → List (String × CriteriaEvaluation)
  | [] => [(k, v)]
  | p :: rest => if p.1 = k then (k, v) :: rest else p :: dictInsert k v rest

structure CriteriaManager where
  criteria : List TradingCriterion
deriving DecidableEq, Repr

namespace CriteriaManager

/-- Union of required fields over all criteria.  The source collects them in
a Python `set`; its iteration order only influences which unreachable
"missing field" message would come first, so first-occurrence order is
used here. -/
def get_required_fields (m : CriteriaManager) : List String :=
  (m.criteria.flatMap TradingCriterion.get_required_fields).dedup

/-- `validate_context`: context range/presence validation followed by the
required-field presence loop.  The source message quotes the field name;
the quotes are dropped here (the message is provably unreachable for the
six modeled criterion kinds, whose fields always exist). -/
def validate_context (m : CriteriaManager) (ctx : TradingContext) : List String :=
  ctx.validate ++
  (m.get_required_fields.filterMap fun f =>
    if ctx.fieldPresent f then none
    else some ("Required field " ++ f ++ " is missing"))

/-- The evaluation produced for every criterion when context validation
fails inside `evaluate_all`. -/
def validationFailedEvaluation (n : String) (errors : List String) : CriteriaEvaluation :=
  { criterion_name := n, result := .fail, score := 0,
    message := "Context validation failed: " ++ String.intercalate ", " errors }

/-- The `results[criterion.name] = criterion.evaluate(context)` loop; `none`
propagates a criterion evaluation that raises. -/
def evalInto (ctx : TradingContext) :
    List TradingCriterion → List (String × CriteriaEvaluation) →
    Option (List (String × CriteriaEvaluation))
  | [], acc => some acc
  | c :: cs, acc =>
    match c.evaluate ctx with
    | none => none
    | some e => evalInto ctx cs (dictInsert c.name e acc)

/-- `evaluate_all`: on validation failure, a failed evaluation per criterion
(still dict-keyed by name); otherwise every criterion is evaluated. -/
def evaluate_all (m : CriteriaManager) (ctx : TradingContext) :
    Option (List (String × CriteriaEvaluation)) :=
  let errors := m.validate_context ctx
  if errors.isEmpty then evalInto ctx m.criteria []
  else some (m.criteria.foldl
    (fun acc c => dictInsert c.name (validationFailedEvaluation c.name errors) acc) [])

/-- Score lookup `evaluations[c.name].score`; the key is always present,
so the default branch is unreachable. -/
def lookupScore (evals : List (String × CriteriaEvaluation)) (n : String) : Rat :=
  match evals.lookup n with
  | some e => e.score
  | none => 0

/-- `should_trade`, returning `(admit, overall score, summary message)`.
`failed_messages` reads `evaluations[name].message` back through the dict;
since dict keys are unique this equals the message stored alongside the
failing entry, which is how it is written here. -/
def should_trade (m : CriteriaManager) (ctx : TradingContext) :
    Option (Bool × Rat × String) :=
  if m.criteria.isEmpty then some (true, 1, "No criteria defined - allowing trade")
  else
    let errors := m.validate_context ctx
    if ¬ errors.isEmpty then
      some (false, 0, "Context validation failed: " ++ String.intercalate ", " errors)
    else
      match m.evaluate_all ctx with
      | none => none
      | some evals =>
        let failed := evals.filter fun p => p.2.result = CriteriaResult.fail
        if ¬ failed.isEmpty then
          some (false, 0, "Trade blocked by: " ++
            String.intercalate ", " (failed.map fun p => p.2.message))
        else
          let total_weight := (m.criteria.map TradingCriterion.weight).sum
          let weighted_score :=
            if 0 < total_weight then
              (m.criteria.map fun c => lookupScore evals c.name * c.weight).sum / total_weight
            else 0
          let passed := evals.filter fun p => p.2.result = CriteriaResult.pass
          some (true, weighted_score,
            "Trade allowed by " ++ toString passed.length ++ " criteria with score " ++
              toString weighted_score)

end CriteriaManager

/-! ### Position sizing (src/core/position_sizing.py) -/

/-- `PositionSizing.calculate_kelly_criterion`.  `none` is the
`ZeroDivisionError` raised when `avg_win == 0` while `avg_loss != 0`. -/
def calculate_kelly_criterion (win_rate avg_win avg_loss : Rat) : Option Rat :=
  if avg_loss = 0 then some (1/10)
  else if avg_win = 0 then none
  else
    let kelly_fraction := (win_rate * avg_win - (1 - win_rate) * avg_loss) / avg_win
    some (max (1/10) (min (1/2) kelly_fraction))

/-- `PositionSizing.get_volatility_adjustment`.  `recent` is the Python slice
`daily_pnl[-lookback:]` (the whole list when `lookback == 0`); the standard
deviation tests are encoded on the variance via `sqrtGT`/`sqrtLT`.  Callers
use `lookback = 20` and `threshold = 2/5`. -/
def get_volatility_adjustment (daily_pnl : List Rat) (lookback : Nat) (threshold : Rat) : Rat :=
  if daily_pnl.length < lookback then 1
  else
    let recent := if lookback = 0 then daily_pnl else daily_pnl.drop (daily_pnl.length - lookback)
    let v := popVar recent
    if sqrtGT v threshold then 7/10
    else if sqrtLT v (1/10) then 6/5
    else 1

/-- Modelled from the spec claim's words, NOT from the source: identical to
`get_volatility_adjustment` except that the low-volatility branch compares
the standard deviation against `0.1 × threshold` instead of the source's
absolute constant `0.1`.  Used only to exhibit the divergence. -/
def claimed_volatility_adjustment (daily_pnl : List Rat) (lookback : Nat) (threshold : Rat) : Rat :=
  if daily_pnl.length < lookback then 1
  else
    let recent := if lookback = 0 then daily_pnl else daily_pnl.drop (daily_pnl.length - lookback)
    let v := popVar recent
    if sqrtGT v threshold then 7/10
    else if sqrtLT v ((1/10) * threshold) then 6/5
    else 1

/-! ### RiskManager (src/core/risk_manager.py)

`calculate_position_size` reads win rate, average win/loss, portfolio value,
remaining margin and the pooled daily PnL through `self` accessors; the
embedding takes those readings as arguments.  `max_position_size` is the
`getattr(self.algorithm, 'max_position_size', 0.20)` reading used by the
conservative fallback. -/

/-- `RiskManager.calculate_max_loss`: worst case is a 50% drop of the
underlying; loss per contract is the intrinsic value times 100. -/
def calculate_max_loss (strike underlying_price : Rat) : Rat :=
  max 0 (strike - underlying_price * (1/2)) * 100

/-- `RiskManager.calculate_portfolio_risk_size`. -/
def calculate_portfolio_risk_size (portfolio_value max_portfolio_risk strike underlying_price : Rat) : Int :=
  let max_risk_amount := portfolio_value * max_portfolio_risk
  let potential_loss := calculate_max_loss strike underlying_price
  if potential_loss ≤ 0 then 1
  else pyInt (max_risk_amount / potential_loss)

/-- `RiskManager.calculate_margin_based_size`; `none` is the
`ZeroDivisionError` on a zero margin requirement (zero strike). -/
def calculate_margin_based_size (available_margin strike : Rat) : Option Int :=
  let margin_requirement := strike * 100 * (1/5)
  if margin_requirement = 0 then none
  else some (pyInt (available_margin / margin_requirement))

/-- `RiskManager.calculate_conservative_position_size`; `none` is the
`ZeroDivisionError` on a zero margin requirement (zero strike). -/
def calculate_conservative_position_size (portfolio_value max_position_size strike : Rat) : Option Int :=
  let max_position_value := portfolio_value * max_position_size
  let margin_requirement := strike * 100 * (1/5)
  if margin_requirement = 0 then none
  else some (max 1 (pyInt (max_position_value / margin_requirement)))

/-- `RiskManager.calculate_position_size`: Kelly sizing with the
conservative fallback taken as soon as the average loss is zero, before any
Kelly, volatility or cap computation. -/
def riskmanager_calculate_position_size
    (win_rate avg_win avg_loss portfolio_value max_position_size strike
      underlying_price available_margin volatility_factor max_portfolio_risk : Rat) :
    Option Int :=
  if avg_loss = 0 then
    calculate_conservative_position_size portfolio_value max_position_size strike
  else if avg_win = 0 then none
  else
    let kelly_raw := (win_rate * avg_win - (1 - win_rate) * avg_loss) / avg_win
    let kelly_fraction := max (1/10) (min (1/2) kelly_raw)
    let portfolio_risk_size := calculate_portfolio_risk_size portfolio_value max_portfolio_risk strike underlying_price
    match calculate_margin_based_size available_margin strike with
    | none => none
    | some margin_size =>
      some (max 1 (min (min portfolio_risk_size margin_size)
        (pyInt ((portfolio_risk_size : Rat) * kelly_fraction * volatility_factor))))

/-! ### Exit rule (src/strategies/sell_put/position_manager.py, lines 44-77,
and src/strategies/sell_put/components/position_manager.py, lines 47-66)

The per-tick readings (`current_contract` truthiness, `Portfolio[...].Invested`,
days to expiry, the raw option delta) are passed as arguments. -/

/-- `PositionManager.should_close_position` (the full implementation):
close only within 14 days of expiry AND with `|delta|` outside the target
range. -/
def should_close_position (has_contract invested : Bool) (days_to_expiry : Int)
    (delta target_delta_min target_delta_max : Rat) : Bool :=
  if !has_contract then false
  else if !invested then false
  else
    let delta_abs := |delta|
    let delta_out_of_range :=
      decide (delta_abs < target_delta_min) || decide (target_delta_max < delta_abs)
    decide (days_to_expiry ≤ 14) && delta_out_of_range

/-- `PositionManager.should_close_position` of the components package: after
the basic checks it computes DTE and delta but the decision logic is an
unimplemented TODO, so it always returns `False`. -/
def components_should_close_position (has_contract invested : Bool)
    (days_to_expiry : Int) (delta : Rat) : Bool :=
  if !has_contract then false
  else if !invested then false
  else false

/-! ### StockManager (src/strategies/sell_put/components/stock_manager.py)
and the trade-record round trip.

`open_position` embeds the fill bookkeeping of the entry pipeline
(src/strategies/sell_put/position_manager.py, lines 224-241): set the
current contract, stamp the trade date, bump the trade count, append the
trade record.  `close_position` embeds
`StockManager.close_position` (lines 260-298); the portfolio quantity of the
contract and the `Invested` flag are read from the external account state and
passed in. -/

structure Contract where
  symbol : String
  strike : Rat
  expiry : Int
deriving DecidableEq, Repr

structure TradeRecord where
  date : Int
  symbol : String
  strike : Rat
  expiry : Int
  quantity : Int
  price : Rat
  delta : Rat
  underlying_price : Rat
  exit_price : Option Rat := none
  pnl : Option Rat := none
  exit_date : Option Int := none
deriving DecidableEq, Repr

structure StockMgrState where
  current_contract : Option Contract := none
  last_trade_date : Option Int := none
  trade_count : Nat := 0
  profit_loss : Rat := 0
  trades : List TradeRecord := []
deriving DecidableEq, Repr

/-- Mutate the last record of the trade history in place
(`self.trades[-1][...] = ...`). -/
def updateLast (f : TradeRecord → TradeRecord) : List TradeRecord → List TradeRecord
  | [] => []
  | [t] => [f t]
  | t :: ts => t :: updateLast f ts

/-- Entry-fill bookkeeping: contract pointer, daily-trade stamp, trade count
and the appended trade record with the entry fill price. -/
def open_position (s : StockMgrState) (c : Contract) (today : Int)
    (fill_price : Rat) (quantity : Int) (delta underlying_price : Rat) : StockMgrState :=
  { s with
    current_contract := some c,
    last_trade_date := some today,
    trade_count := s.trade_count + 1,
    trades := s.trades ++ [{
      date := today, symbol := c.symbol, strike := c.strike, expiry := c.expiry,
      quantity := quantity, price := fill_price, delta := delta,
      underlying_price := underlying_price }] }

/-- `StockManager.close_position`: buy back, record
`(entry - exit) * position.Quantity * 100` onto the last trade record,
accumulate `profit_loss`, clear the contract pointer.  With no contract, or
with the contract not invested, nothing happens. -/
def close_position (s : StockMgrState) (invested : Bool) (position_quantity : Int)
    (exit_fill : Rat) (today : Int) : StockMgrState :=
  match s.current_contract with
  | none => s
  | some _ =>
    if !invested then s
    else
      match s.trades.getLast? with
      | none => { s with current_contract := none }
      | some last =>
        let entry_price := last.price
        let pnl := (entry_price - exit_fill) * (position_quantity : Rat) * 100
        { s with
          profit_loss := s.profit_loss + pnl,
          trades := updateLast (fun t =>
            { t with exit_price := some exit_fill, pnl := some pnl,
                     exit_date := some today }) s.trades,
          current_contract := none }

/-! ### PortfolioManager arbitration
(src/strategies/sell_put/components/portfolio_manager.py and
src/strategies/sell_put/components/stock_manager.py, `should_trade`)

A `StockState` carries the per-tick readings `StockManager.should_trade` and
`_calculate_opportunity_score` consume: the config flags, the open-position
and traded-today checks, the underlying holding, the per-asset circuit
breaker verdict (`risk_manager.should_stop_trading()`), the allocation
weight, the price history and the data-snapshot flag. -/

structure StockState where
  ticker : String
  enabled : Bool
  has_current_contract : Bool
  contract_invested : Bool
  traded_today : Bool
  underlying_quantity : Int
  risk_stop : Bool
  weight : Rat
  price_history : List Rat
  has_latest_slice : Bool
deriving DecidableEq, Repr

/-- `StockManager.should_trade`: the five entry guards in source order. -/
def StockState.should_trade (s : StockState) : Bool :=
  if !s.enabled then false
  else if s.has_current_contract && s.contract_invested then false
  else if s.traded_today then false
  else if s.underlying_quantity ≠ 0 then false
  else if s.risk_stop then false
  else true

/-- `PortfolioManager._calculate_opportunity_score`: allocation weight times
ten plus the three data bonuses. -/
def calculate_opportunity_score (s : StockState) : Rat :=
  s.weight * 10 +
  (if s.price_history.isEmpty then 0 else 5) +
  (if 5 ≤ s.price_history.length then 3 else 0) +
  (if s.has_latest_slice then 2 else 0)

/-- The opportunity-collection loop of `_find_best_trading_opportunity`:
skip stocks failing `should_trade`, keep `(stock, score)` pairs with a
positive score, in iteration order. -/
def opportunities (stocks : List StockState) : List (StockState × Rat) :=
  stocks.filterMap fun s =>
    if s.should_trade && decide (0 < calculate_opportunity_score s) then
      some (s, calculate_opportunity_score s)
    else none

/-- Stable insertion step for a descending sort: an element is placed before
the first strictly smaller score, hence after all earlier elements with an
equal score — the placement CPython's stable `list.sort(reverse=True)`
produces. -/
def insertDesc (p : StockState × Rat) : List (StockState × Rat) → List (StockState × Rat)
  | [] => [p]
  | q :: qs => if q.2 ≤ p.2 then p :: q :: qs else q :: insertDesc p qs

/-- Stable descending sort by score, modelling
`opportunities.sort(key=lambda x: x[1], reverse=True)`. -/
def sortDesc : List (StockState × Rat) → List (StockState × Rat)
  | [] => []
  | p :: ps => insertDesc p (sortDesc ps)

/-- `PortfolioManager._find_best_trading_opportunity`: the head of the
descending sort, or `None` when no stock qualifies. -/
def find_best_trading_opportunity (stocks : List StockState) : Option StockState :=
  ((sortDesc (opportunities stocks)).head?).map Prod.fst

/-- `RiskLimits.check_drawdown_limit` (src/core/position_sizing.py). -/
def check_drawdown_limit (current_value peak_value max_drawdown : Rat) : Bool :=
  if peak_value ≤ 0 then false
  else decide (max_drawdown < (peak_value - current_value) / peak_value)

/-- `RiskLimits.check_portfolio_volatility` (src/core/position_sizing.py):
needs at least `min_data_points` PnL points, then compares the standard
deviation of the whole series against `portfolio_value * max_volatility_pct`.
Callers use `min_data_points = 20`. -/
def check_portfolio_volatility (daily_pnl : List Rat)
    (portfolio_value max_volatility_pct : Rat) (min_data_points : Nat) : Bool :=
  if daily_pnl.length < min_data_points then false
  else sqrtGT (popVar daily_pnl) (portfolio_value * max_volatility_pct)

structure PortfolioState where
  current_value : Rat
  peak_value : Rat
  max_drawdown : Rat
  max_portfolio_risk : Rat
  daily_portfolio_pnl : List Rat
  max_stocks : Nat
deriving DecidableEq, Repr

/-- `PortfolioManager._check_portfolio_risk_limits`. -/
def check_portfolio_risk_limits (p : PortfolioState) : Bool :=
  check_drawdown_limit p.current_value p.peak_value p.max_drawdown ||
  check_portfolio_volatility p.daily_portfolio_pnl p.current_value p.max_portfolio_risk 20

/-- `PortfolioManager._count_open_positions`. -/
def count_open_positions (stocks : List StockState) : Nat :=
  (stocks.filter fun s => s.has_current_contract && s.contract_invested).length

/-- `PortfolioManager.should_trade_portfolio`: risk limits, then the
concurrency cap. -/
def should_trade_portfolio (p : PortfolioState) (stocks : List StockState) : Bool :=
  if check_portfolio_risk_limits p then false
  else if p.max_stocks ≤ count_open_positions stocks then false
  else true

/-- The entry phase of `PortfolioManager.manage_positions`: after the exit
sweep, if the portfolio admission check passes, `find_and_enter_position` is
invoked on the single best opportunity; the result lists the assets whose
entry pipeline is invoked this tick. -/
def manage_positions_entries (p : PortfolioState) (stocks : List StockState) :
    List StockState :=
  if should_trade_portfolio p stocks then
    match find_best_trading_opportunity stocks with
    | some s => [s]
    | none => []
  else []

/-! ### Concrete fixtures used by counterexamples and witnesses -/

/-- A context passing every validation check (delta 0.3, DTE 30, strike 100,
underlying 100, volatility 0.2, RSI 50, trend strength 0.5). -/
def ctxValid : TradingContext :=
  { delta := 3/10, dte := 30, strike := 100, underlying_price := 100,
    volatility := 1/5, market_regime := "unknown", rsi := 50,
    trend_direction := "neutral", trend_strength := 1/2 }

/-- `ctxValid` with an out-of-range volatility of 3. -/
def ctxInvalidVol : TradingContext := { ctxValid with volatility := 3 }

/-- `ctxValid` with delta exactly 0. -/
def ctxDeltaZero : TradingContext := { ctxValid with delta := 0 }

/-- `ctxValid` with delta exactly at a range boundary 0.25. -/
def ctxBoundary : TradingContext := { ctxValid with delta := 1/4 }

/-- `ctxValid` with delta 0.5 (mid of the `(0.25, 0.75)` range). -/
def ctxMid : TradingContext := { ctxValid with delta := 1/2 }

/-- Two Delta criteria (same name "Delta") with different ranges. -/
def mgrDupNames : CriteriaManager :=
  ⟨[.deltaCriterion (1/2, 3/5) 1, .deltaCriterion (1/10, 9/10) 1]⟩

/-- A Delta criterion and an RSI criterion (distinct names). -/
def mgrDeltaRsi : CriteriaManager :=
  ⟨[.deltaCriterion (1/2, 3/5) 1, .rsiCriterion 30 70 1]⟩

/-- A single loose Delta criterion (the `delta_only` preset). -/
def mgrDeltaOnly : CriteriaManager := ⟨[.deltaCriterion (3/20, 17/20) 1]⟩

/-- Twenty daily-PnL points: ten of +0.05 and ten of −0.05 (mean 0,
population standard deviation exactly 0.05). -/
def pnl20 : List Rat := List.replicate 10 (1/20) ++ List.replicate 10 (-(1/20))

/-- The failing evaluation of `.deltaCriterion (1/2, 3/5) 1` on `ctxValid`. -/
def evalDeltaFail : CriteriaEvaluation :=
  { criterion_name := "Delta", result := .fail, score := 0,
    message := "Delta " ++ toString ((3:Rat)/10) ++ " outside range " ++
      toString ((1:Rat)/2) ++ "-" ++ toString ((3:Rat)/5) }

/-- The passing evaluation of `.rsiCriterion 30 70 1` on `ctxValid`. -/
def evalRsiPass : CriteriaEvaluation :=
  { criterion_name := "RSI", result := .pass, score := 1,
    message := "RSI " ++ toString ((50:Rat)) ++ " in acceptable range " ++
      toString ((30:Rat)) ++ "-" ++ toString ((70:Rat)) }

/-! ### Helper lemmas on the evaluation dictionary -/

theorem dictInsert_self (k : String) (v : CriteriaEvaluation)
    (l : List (String × CriteriaEvaluation)) : (k, v) ∈ dictInsert k v l := by
  induction l with
  | nil => simp [dictInsert]
  | cons p rest ih =>
    simp only [dictInsert]
    split
    · exact List.mem_cons_self _ _
    · exact List.mem_cons_of_mem _ ih

theorem dictInsert_mem_of_ne {k : String} {v : CriteriaEvaluation}
    {l : List (String × CriteriaEvaluation)} (h : (k, v) ∈ l)
    {k' : String} (v' : CriteriaEvaluation) (hne : k' ≠ k) :
    (k, v) ∈ dictInsert k' v' l := by
  induction l with
  | nil => simp at h
  | cons p rest ih =>
    rcases List.mem_cons.mp h with h1 | h1
    · subst h1
      simp only [dictInsert]
      rw [if_neg (by simpa using hne.symm)]
      exact List.mem_cons_self _ _
    · simp only [dictInsert]
      split
      · exact List.mem_cons_of_mem _ h1
      · exact List.mem_cons_of_mem _ (ih h1)

theorem evalInto_preserve {ctx : TradingContext} {k : String} {v : CriteriaEvaluation} :
    ∀ {cs : List TradingCriterion} {acc evals : List (String × CriteriaEvaluation)},
      CriteriaManager.evalInto ctx cs acc = some evals → (k, v) ∈ acc →
      (∀ c ∈ cs, TradingCriterion.name c ≠ k) → (k, v) ∈ evals := by
  intro cs
  induction cs with
  | nil =>
    intro acc evals h hm _
    simp only [CriteriaManager.evalInto, Option.some.injEq] at h
    exact h ▸ hm
  | cons c cs ih =>
    intro acc evals h hm hname
    simp only [CriteriaManager.evalInto] at h
    cases he : c.evaluate ctx with
    | none => rw [he] at h; exact absurd h (by simp)
    | some e =>
      rw [he] at h
      exact ih h (dictInsert_mem_of_ne hm e (hname c (List.mem_cons_self _ _)))
        (fun c' hc' => hname c' (List.mem_cons_of_mem _ hc'))

theorem evalInto_mem {ctx : TradingContext} :
    ∀ {cs : List TradingCriterion} {acc evals : List (String × CriteriaEvaluation)}
      {c : TradingCriterion} {e : CriteriaEvaluation},
      (cs.map TradingCriterion.name).Nodup → c ∈ cs → c.evaluate ctx = some e →
      CriteriaManager.evalInto ctx cs acc = some evals → (c.name, e) ∈ evals := by
  intro cs
  induction cs with
  | nil => intro acc evals c e _ hc; simp at hc
  | cons c0 cs ih =>
    intro acc evals c e hnd hc he h
    simp only [CriteriaManager.evalInto] at h
    rcases List.mem_cons.mp hc with rfl | hc'
    · rw [he] at h
      refine evalInto_preserve h (dictInsert_self _ _ _) (fun c' hc' hEq => ?_)
      have hnotin := (List.nodup_cons.mp ((List.map_cons _ _ _) ▸ hnd)).1
      exact hnotin (hEq ▸ List.mem_map_of_mem TradingCriterion.name hc')
    · cases he0 : c0.evaluate ctx with
      | none => rw [he0] at h; simp at h
      | some e0 =>
        rw [he0] at h
        exact ih (List.nodup_cons.mp ((List.map_cons _ _ _) ▸ hnd)).2 hc' he h

/-! ### Claim C8 -/

/-- Claim C8, counterexample: with target range `[0.25, 0.75]` and
`|delta| = 0.25` (a range endpoint) the Delta criterion PASSES but its score
is exactly 0, not in `(0, 1]` as claimed. -/
theorem deltaCriterion_boundary_pass_score_zero :
    ((TradingCriterion.deltaCriterion (1/4, 3/4) 1).evaluate ctxBoundary).map
      (fun e => (e.result, e.score)) = some (CriteriaResult.pass, 0) := by
  norm_num [TradingCriterion.evaluate, ctxBoundary, ctxValid, abs]

/-- Claim C8 (amended): for a Delta criterion over a target range
`[mn, mx]` with `mn < mx`, every context with `|delta| ∈ [mn, mx]` passes
with a score in `[0, 1]` which is zero exactly at the two range endpoints
(the claimed open interval `(0, 1]` fails there); every `|delta|` outside
the range fails with score exactly 0. -/
theorem deltaCriterion_pass_fail_scores (mn mx w : Rat) (ctx : TradingContext)
    (hlt : mn < mx) :
    (mn ≤ |ctx.delta| ∧ |ctx.delta| ≤ mx →
      ∃ e, (TradingCriterion.deltaCriterion (mn, mx) w).evaluate ctx = some e ∧
        e.result = CriteriaResult.pass ∧ 0 ≤ e.score ∧ e.score ≤ 1 ∧
        (e.score = 0 ↔ |ctx.delta| = mn ∨ |ctx.delta| = mx)) ∧
    (¬ (mn ≤ |ctx.delta| ∧ |ctx.delta| ≤ mx) →
      ∃ e, (TradingCriterion.deltaCriterion (mn, mx) w).evaluate ctx = some e ∧
        e.result = CriteriaResult.fail ∧ e.score = 0) := by
  constructor
  · intro hin
    have hmd : (0:Rat) < (mx - mn) / 2 := by linarith
    have hmd' : ((mx - mn) / 2 : Rat) ≠ 0 := ne_of_gt hmd
    have hdist_le : abs (|ctx.delta| - (mn + mx) / 2) ≤ (mx - mn) / 2 :=
      abs_le.mpr ⟨by linarith [hin.1, hin.2], by linarith [hin.1, hin.2]⟩
    simp only [TradingCriterion.evaluate]
    rw [if_pos hin, if_neg hmd']
    refine ⟨_, rfl, rfl, le_max_left _ _, ?_, ?_⟩
    · refine max_le (by norm_num) ?_
      have : (0:Rat) ≤ abs (|ctx.delta| - (mn + mx) / 2) / ((mx - mn) / 2) :=
        div_nonneg (abs_nonneg _) hmd.le
      linarith
    · constructor
      · intro h0
        have hx : 1 - abs (|ctx.delta| - (mn + mx) / 2) / ((mx - mn) / 2) ≤ 0 :=
          max_eq_left_iff.mp h0
        have h1 : (mx - mn) / 2 ≤ abs (|ctx.delta| - (mn + mx) / 2) :=
          (one_le_div hmd).mp (by linarith)
        have heq := le_antisymm hdist_le h1
        rcases (abs_eq hmd.le).mp heq with h | h
        · right; linarith
        · left; linarith
      · intro h
        have heq : abs (|ctx.delta| - (mn + mx) / 2) = (mx - mn) / 2 := by
          rcases h with h | h
          · rw [h, abs_of_nonpos (by linarith)]; ring
          · rw [h, abs_of_nonneg (by linarith)]; ring
        rw [heq, div_self hmd']
        norm_num
  · intro hout
    simp only [TradingCriterion.evaluate]
    rw [if_neg hout]
    exact ⟨_, rfl, rfl, rfl⟩

/-- Witness for claim C8's theorem at range `(0.25, 0.75)` and `|delta| = 0.5`. -/
theorem deltaCriterion_pass_fail_scores_witness :
    ∃ e, (TradingCriterion.deltaCriterion (1/4, 3/4) 1).evaluate ctxMid = some e ∧
      e.result = CriteriaResult.pass ∧ 0 ≤ e.score ∧ e.score ≤ 1 ∧
      (e.score = 0 ↔ |ctxMid.delta| = 1/4 ∨ |ctxMid.delta| = 3/4) :=
  (deltaCriterion_pass_fail_scores (1/4) (3/4) 1 ctxMid (by norm_num)).1
    (by norm_num [ctxMid, ctxValid, abs])

/-! ### Claim C10 -/

/-- Claim C10: a context with delta exactly 0.0, or dte exactly 0, or strike
exactly 0.0, or underlying price exactly 0.0 always fails `validate` (the
zero value is read as missing data and reported as required), and therefore
`should_trade` of any manager with at least one registered criterion rejects
it with admit = false and score 0 — even though these boundary values are
inside the declared valid ranges. -/
theorem zero_boundary_context_rejected (ctx : TradingContext)
    (h : ctx.delta = 0 ∨ ctx.dte = 0 ∨ ctx.strike = 0 ∨ ctx.underlying_price = 0) :
    ctx.validate ≠ [] ∧
    (ctx.delta = 0 → "Delta is required" ∈ ctx.validate) ∧
    (ctx.dte = 0 → "DTE is required" ∈ ctx.validate) ∧
    (ctx.strike = 0 → "Strike price is required" ∈ ctx.validate) ∧
    (ctx.underlying_price = 0 → "Underlying price is required" ∈ ctx.validate) ∧
    ∀ m : CriteriaManager, m.criteria ≠ [] →
      m.should_trade ctx = some (false, 0, "Context validation failed: " ++
        String.intercalate ", " (m.validate_context ctx)) := by
  have hdelta : ctx.delta = 0 → "Delta is required" ∈ ctx.validate := by
    intro h0; simp [TradingContext.validate, h0]
  have hdte : ctx.dte = 0 → "DTE is required" ∈ ctx.validate := by
    intro h0; simp [TradingContext.validate, h0]
  have hstrike : ctx.strike = 0 → "Strike price is required" ∈ ctx.validate := by
    intro h0; simp [TradingContext.validate, h0]
  have hup : ctx.underlying_price = 0 → "Underlying price is required" ∈ ctx.validate := by
    intro h0; simp [TradingContext.validate, h0]
  have hne : ctx.validate ≠ [] := by
    rcases h with h0 | h0 | h0 | h0
    · exact List.ne_nil_of_mem (hdelta h0)
    · exact List.ne_nil_of_mem (hdte h0)
    · exact List.ne_nil_of_mem (hstrike h0)
    · exact List.ne_nil_of_mem (hup h0)
  refine ⟨hne, hdelta, hdte, hstrike, hup, fun m hm => ?_⟩
  have herr : m.validate_context ctx ≠ [] := by
    intro hcontra
    exact hne (List.append_eq_nil.mp hcontra).1
  simp only [CriteriaManager.should_trade]
  rw [if_neg (by simp [List.isEmpty_iff, hm]), if_pos (by simp [List.isEmpty_iff, herr])]

/-- Witness for claim C10's theorem: delta 0 context against the single
loose Delta criterion. -/
theorem zero_boundary_context_rejected_witness :
    ctxDeltaZero.validate ≠ [] ∧
    mgrDeltaOnly.should_trade ctxDeltaZero =
      some (false, 0, "Context validation failed: " ++
        String.intercalate ", " (mgrDeltaOnly.validate_context ctxDeltaZero)) :=
  ⟨(zero_boundary_context_rejected ctxDeltaZero (Or.inl rfl)).1,
   (zero_boundary_context_rejected ctxDeltaZero (Or.inl rfl)).2.2.2.2.2
     mgrDeltaOnly (by simp [mgrDeltaOnly])⟩

/-! ### Claim C4 -/

/-- Claim C4, counterexample: with an EMPTY registered criteria set and a
context failing range validation (volatility 3 > 2), `should_trade` returns
admit = true with score 1.0 — the `if not self.criteria` fast path runs
before context validation — contradicting the claimed universal
rejection. -/
theorem empty_criteria_admit_invalid_context :
    ctxInvalidVol.validate ≠ [] ∧
    (CriteriaManager.mk []).should_trade ctxInvalidVol =
      some (true, 1, "No criteria defined - allowing trade") := by
  constructor
  · norm_num [TradingContext.validate, ctxInvalidVol, ctxValid]
  · simp [CriteriaManager.should_trade]

/-- Claim C4 (amended): for every NON-EMPTY registered criteria set and
every context failing range/presence validation, `should_trade` returns
admit = false and score 0 without evaluating any criterion — the returned
triple is fully determined by the validation-error list, whose every entry
is reported in the message. -/
theorem should_trade_validation_failfast (m : CriteriaManager) (ctx : TradingContext)
    (hm : m.criteria ≠ []) (hv : m.validate_context ctx ≠ []) :
    m.should_trade ctx = some (false, 0, "Context validation failed: " ++
      String.intercalate ", " (m.validate_context ctx)) := by
  simp only [CriteriaManager.should_trade]
  rw [if_neg (by simp [List.isEmpty_iff, hm]), if_pos (by simp [List.isEmpty_iff, hv])]

/-- Witness for claim C4's theorem: the single loose Delta criterion against
the invalid-volatility context. -/
theorem should_trade_validation_failfast_witness :
    mgrDeltaOnly.should_trade ctxInvalidVol =
      some (false, 0, "Context validation failed: " ++
        String.intercalate ", " (mgrDeltaOnly.validate_context ctxInvalidVol)) :=
  should_trade_validation_failfast mgrDeltaOnly ctxInvalidVol
    (by simp [mgrDeltaOnly])
    (by
      have : "Volatility must be between 0.0 and 2.0" ∈ ctxInvalidVol.validate := by
        norm_num [TradingContext.validate, ctxInvalidVol, ctxValid]
      exact fun hcontra => List.ne_nil_of_mem this
        (List.append_eq_nil.mp hcontra).1)

/-! ### Claim C3 -/

/-- Claim C3, counterexample: two registered criteria share the name
"Delta"; the first fails on `ctxValid` (delta 0.3 is outside `[0.5, 0.6]`),
yet because `evaluate_all` keys its results dictionary by criterion name,
the later same-named passing criterion overwrites the failure and
`should_trade` admits the trade — not `(false, 0.0, …)` as claimed. -/
theorem duplicate_names_shadow_failure :
    mgrDupNames.criteria.head? = some (TradingCriterion.deltaCriterion (1/2, 3/5) 1) ∧
    ((TradingCriterion.deltaCriterion (1/2, 3/5) 1).evaluate ctxValid).map
      (fun e => e.result) = some CriteriaResult.fail ∧
    (mgrDupNames.should_trade ctxValid).map (fun t => t.1) = some true := by
  refine ⟨rfl, ?_, ?_⟩
  · norm_num [TradingCriterion.evaluate, ctxValid, abs]
  · have habs : |(3/10 : Rat)| = 3/10 := abs_of_nonneg (by norm_num)
    have hne : (CriteriaResult.pass = CriteriaResult.fail) = False := by simp
    norm_num [CriteriaManager.should_trade, CriteriaManager.evaluate_all,
      CriteriaManager.validate_context, CriteriaManager.get_required_fields,
      CriteriaManager.evalInto, TradingContext.validate, TradingContext.fieldPresent,
      TradingCriterion.evaluate, TradingCriterion.get_required_fields,
      TradingCriterion.name, TradingCriterion.weight, dictInsert, mgrDupNames, ctxValid,
      CriteriaManager.lookupScore, habs, hne, List.dedup]

/-- Claim C3 (amended): for every registered criteria collection with
pairwise-DISTINCT names (with duplicate names a later criterion's result
shadows an earlier one's in the name-keyed results dictionary) and every
context passing validation, if any registered criterion evaluates to a
failure — and evaluation completes on all criteria — then `should_trade`
returns `(false, 0.0, message)` with the message listing the failing
criteria's reasons, regardless of the other criteria's scores. -/
theorem any_failing_criterion_blocks (m : CriteriaManager) (ctx : TradingContext)
    (hnodup : (m.criteria.map TradingCriterion.name).Nodup)
    (c : TradingCriterion) (hc : c ∈ m.criteria)
    (e : CriteriaEvaluation) (he : c.evaluate ctx = some e)
    (hfail : e.result = CriteriaResult.fail)
    (hvalid : m.validate_context ctx = [])
    (evals : List (String × CriteriaEvaluation))
    (hevals : m.evaluate_all ctx = some evals) :
    e.message ∈ (evals.filter fun p => p.2.result = CriteriaResult.fail).map
      (fun p => p.2.message) ∧
    m.should_trade ctx = some (false, 0, "Trade blocked by: " ++
      String.intercalate ", " ((evals.filter fun p =>
        p.2.result = CriteriaResult.fail).map fun p => p.2.message)) := by
  have hinto : CriteriaManager.evalInto ctx m.criteria [] = some evals := by
    have h' := hevals
    simp only [CriteriaManager.evaluate_all, hvalid, List.isEmpty_nil, if_true] at h'
    exact h'
  have hmem : (c.name, e) ∈ evals := evalInto_mem hnodup hc he hinto
  have hfmem : (c.name, e) ∈ evals.filter
      (fun p => decide (p.2.result = CriteriaResult.fail)) :=
    List.mem_filter.mpr ⟨hmem, by simp [hfail]⟩
  refine ⟨List.mem_map_of_mem _ hfmem, ?_⟩
  have hm : m.criteria ≠ [] := List.ne_nil_of_mem hc
  simp only [CriteriaManager.should_trade]
  rw [if_neg (by simp [List.isEmpty_iff, hm]), if_neg (by simp [hvalid])]
  simp only [hevals]
  rw [if_pos (by simp [List.isEmpty_iff, List.ne_nil_of_mem hfmem])]

/-- Witness for claim C3's theorem: a failing Delta criterion next to a
passing RSI criterion (distinct names) on `ctxValid`. -/
theorem any_failing_criterion_blocks_witness :
    evalDeltaFail.message ∈ (([("Delta", evalDeltaFail), ("RSI", evalRsiPass)]).filter
      fun p => p.2.result = CriteriaResult.fail).map (fun p => p.2.message) ∧
    mgrDeltaRsi.should_trade ctxValid = some (false, 0, "Trade blocked by: " ++
      String.intercalate ", " ((([("Delta", evalDeltaFail), ("RSI", evalRsiPass)]).filter
        fun p => p.2.result = CriteriaResult.fail).map fun p => p.2.message)) := by
  have habs : |(3/10 : Rat)| = 3/10 := abs_of_nonneg (by norm_num)
  have hreq : mgrDeltaRsi.get_required_fields = ["delta", "rsi"] := rfl
  have hv : mgrDeltaRsi.validate_context ctxValid = [] := by
    simp only [CriteriaManager.validate_context, hreq]
    norm_num [TradingContext.validate, TradingContext.fieldPresent, ctxValid]
  have he : (TradingCriterion.deltaCriterion (1/2, 3/5) 1).evaluate ctxValid =
      some evalDeltaFail := by
    norm_num [TradingCriterion.evaluate, ctxValid, habs, evalDeltaFail]
  have hev : mgrDeltaRsi.evaluate_all ctxValid =
      some [("Delta", evalDeltaFail), ("RSI", evalRsiPass)] := by
    have hsne : ¬ ("Delta" : String) = "RSI" := by decide
    simp only [CriteriaManager.evaluate_all, hv, List.isEmpty_nil, if_true]
    norm_num [CriteriaManager.evalInto, TradingCriterion.evaluate,
      TradingCriterion.name, dictInsert, mgrDeltaRsi, ctxValid, habs,
      evalDeltaFail, evalRsiPass, hsne]
  exact any_failing_criterion_blocks mgrDeltaRsi ctxValid
    (by simp [mgrDeltaRsi, TradingCriterion.name])
    (TradingCriterion.deltaCriterion (1/2, 3/5) 1) (by simp [mgrDeltaRsi])
    evalDeltaFail he rfl hv _ hev

/-! ### Bridge lemmas between the variance encoding and `Real.sqrt` -/

theorem sqrtGT_iff (v b : Rat) :
    sqrtGT v b = true ↔ (b : ℝ) < Real.sqrt (v : ℝ) := by
  simp only [sqrtGT, Bool.or_eq_true, decide_eq_true_eq]
  constructor
  · rintro (hb | hbv)
    · exact lt_of_lt_of_le (by exact_mod_cast hb) (Real.sqrt_nonneg _)
    · rcases lt_or_le b 0 with hb | hb
      · exact lt_of_lt_of_le (by exact_mod_cast hb) (Real.sqrt_nonneg _)
      · refine (Real.lt_sqrt (by exact_mod_cast hb)).mpr ?_
        rw [sq]
        exact_mod_cast hbv
  · intro h
    rcases lt_or_le b 0 with hb | hb
    · exact Or.inl hb
    · right
      have h2 := (Real.lt_sqrt (by exact_mod_cast hb)).mp h
      rw [sq] at h2
      exact_mod_cast h2

theorem sqrtLT_iff (v b : Rat) :
    sqrtLT v b = true ↔ Real.sqrt (v : ℝ) < (b : ℝ) := by
  simp only [sqrtLT, Bool.and_eq_true, decide_eq_true_eq]
  constructor
  · rintro ⟨hb, hvb⟩
    refine (Real.sqrt_lt' (by exact_mod_cast hb)).mpr ?_
    rw [sq]
    exact_mod_cast hvb
  · intro h
    have hb : (0:ℝ) < (b:ℝ) := lt_of_le_of_lt (Real.sqrt_nonneg _) h
    refine ⟨by exact_mod_cast hb, ?_⟩
    have h2 := (Real.sqrt_lt' hb).mp h
    rw [sq] at h2
    exact_mod_cast h2

/-! ### Claim C5 -/

/-- Claim C5, counterexample: at `avg_win = 0` with `avg_loss = 400 ≠ 0` the
Kelly computation raises `ZeroDivisionError` in Python (embedded as `none`),
so no fraction in `[0.10, 0.50]` is returned for these inputs. -/
theorem kelly_zero_avg_win_raises :
    calculate_kelly_criterion (3/5) 0 400 = none := by
  norm_num [calculate_kelly_criterion]

/-- Claim C5 (amended): for every input with `avg_win ≠ 0` or `avg_loss = 0`
(at `avg_win = 0`, `avg_loss ≠ 0` the computation raises), the Kelly fraction
is returned and lies in `[0.10, 0.50]`; in the scenario winRate 0.6,
avgWin 1000, avgLoss 400 the raw Kelly value `0.44 = 11/25` is inside the
clamp and returned unchanged. -/
theorem kelly_fraction_clamped (w aw al : Rat) (h : aw ≠ 0 ∨ al = 0) :
    (∃ v, calculate_kelly_criterion w aw al = some v ∧ 1/10 ≤ v ∧ v ≤ 1/2) ∧
    calculate_kelly_criterion (3/5) 1000 400 =
      some ((3/5 * 1000 - (1 - 3/5) * 400) / 1000) ∧
    ((3:Rat)/5 * 1000 - (1 - 3/5) * 400) / 1000 = 11/25 := by
  refine ⟨?_, ?_, by norm_num⟩
  · by_cases hal : al = 0
    · exact ⟨1/10, by simp [calculate_kelly_criterion, hal], le_refl _, by norm_num⟩
    · have haw : aw ≠ 0 := h.resolve_right hal
      refine ⟨max (1/10) (min (1/2) ((w * aw - (1 - w) * al) / aw)), ?_,
        le_max_left _ _, max_le (by norm_num) (min_le_left _ _)⟩
      simp [calculate_kelly_criterion, hal, haw]
  · have h1 : ((3:Rat)/5 * 1000 - (1 - 3/5) * 400) / 1000 = 11/25 := by norm_num
    rw [h1]
    norm_num [calculate_kelly_criterion]

/-- Witness for claim C5's theorem at the spec scenario inputs. -/
theorem kelly_fraction_clamped_witness :
    (∃ v, calculate_kelly_criterion (3/5) 1000 400 = some v ∧ 1/10 ≤ v ∧ v ≤ 1/2) ∧
    calculate_kelly_criterion (3/5) 1000 400 =
      some ((3/5 * 1000 - (1 - 3/5) * 400) / 1000) ∧
    ((3:Rat)/5 * 1000 - (1 - 3/5) * 400) / 1000 = 11/25 :=
  kelly_fraction_clamped (3/5) 1000 400 (Or.inl (by norm_num))

/-! ### Claim C6 -/

/-- Claim C6: when the average loss reading is zero,
`RiskManager.calculate_position_size` (src/core/risk_manager.py) skips the
Kelly estimate and returns the conservative size
`max 1 ⌊portfolioValue × maxPositionFraction / marginRequirement⌋` with
`marginRequirement = strike × 100 × 0.2` — the win rate, average win,
volatility factor, margin and risk caps are all ignored, as the universally
quantified unused arguments show. -/
theorem avg_loss_zero_skips_kelly
    (w aw pv mps strike up margin vol mpr : Rat) (hs : strike ≠ 0) :
    riskmanager_calculate_position_size w aw 0 pv mps strike up margin vol mpr =
      some (max 1 (pyInt (pv * mps / (strike * 100 * (1/5))))) := by
  have hmr : strike * 100 * ((1:Rat)/5) ≠ 0 := by
    have h100 : strike * 100 * ((1:Rat)/5) = strike * 20 := by ring
    rw [h100]
    exact mul_ne_zero hs (by norm_num)
  simp only [riskmanager_calculate_position_size, if_pos rfl]
  simp [calculate_conservative_position_size, hmr, hs]

/-- Witness for claim C6's theorem: portfolio 100,000 at 20% position
fraction against a 100-strike put (margin requirement 2,000) gives the
conservative size regardless of the other nine inputs. -/
theorem avg_loss_zero_skips_kelly_witness :
    riskmanager_calculate_position_size (3/5) 100 0 100000 (1/5) 100 100
        1000000 1 (1/50) =
      some (max 1 (pyInt (100000 * (1/5) / (100 * 100 * (1/5))))) :=
  avg_loss_zero_skips_kelly (3/5) 100 100000 (1/5) 100 100 1000000 1 (1/50)
    (by norm_num)

/-! ### Claim C7 -/

/-- Claim C7, counterexample: twenty PnL points with standard deviation
exactly 0.05.  The claim (stdev < 0.1×threshold = 0.04 for the 1.2 branch)
predicts the factor 1.0, but the source compares against the absolute
constant 0.1 and returns 1.2. -/
theorem volatility_adjustment_absolute_low_branch :
    get_volatility_adjustment pnl20 20 (2/5) = 6/5 ∧
    claimed_volatility_adjustment pnl20 20 (2/5) = 1 := by
  constructor
  · norm_num [get_volatility_adjustment, sqrtGT, sqrtLT, pnl20, popVar,
      listMean, List.replicate]
  · norm_num [claimed_volatility_adjustment, sqrtGT, sqrtLT, pnl20, popVar,
      listMean, List.replicate]

/-- Claim C7 (amended): with fewer than 20 PnL points the factor is 1.0;
otherwise, with σ the population standard deviation of the trailing
20-point window and the default threshold 0.4, the factor is 0.7 when
σ > 0.4, 1.2 when σ < 0.1 (the source's absolute constant, not
0.1 × threshold as claimed), and 1.0 in all other cases. -/
theorem volatility_adjustment_cases (l : List Rat) :
    (l.length < 20 → get_volatility_adjustment l 20 (2/5) = 1) ∧
    (20 ≤ l.length →
      ((2:ℝ)/5 < Real.sqrt ((popVar (l.drop (l.length - 20)) : Rat) : ℝ) →
        get_volatility_adjustment l 20 (2/5) = 7/10) ∧
      (Real.sqrt ((popVar (l.drop (l.length - 20)) : Rat) : ℝ) ≤ (2:ℝ)/5 →
        Real.sqrt ((popVar (l.drop (l.length - 20)) : Rat) : ℝ) < (1:ℝ)/10 →
        get_volatility_adjustment l 20 (2/5) = 6/5) ∧
      ((1:ℝ)/10 ≤ Real.sqrt ((popVar (l.drop (l.length - 20)) : Rat) : ℝ) →
        Real.sqrt ((popVar (l.drop (l.length - 20)) : Rat) : ℝ) ≤ (2:ℝ)/5 →
        get_volatility_adjustment l 20 (2/5) = 1)) := by
  constructor
  · intro h
    simp [get_volatility_adjustment, h]
  · intro hlen
    have hnl : ¬ l.length < 20 := not_lt.mpr hlen
    have hGT := sqrtGT_iff (popVar (l.drop (l.length - 20))) (2/5)
    have hLT := sqrtLT_iff (popVar (l.drop (l.length - 20))) (1/10)
    have hc1 : (((2:Rat)/5 : Rat) : ℝ) = (2:ℝ)/5 := by norm_num
    have hc2 : (((1:Rat)/10 : Rat) : ℝ) = (1:ℝ)/10 := by norm_num
    rw [hc1] at hGT
    rw [hc2] at hLT
    have hfun : get_volatility_adjustment l 20 (2/5) =
        if sqrtGT (popVar (l.drop (l.length - 20))) (2/5) then 7/10
        else if sqrtLT (popVar (l.drop (l.length - 20))) (1/10) then 6/5
        else 1 := by
      simp [get_volatility_adjustment, hnl]
    refine ⟨?_, ?_, ?_⟩
    · intro h
      rw [hfun, if_pos (hGT.mpr h)]
    · intro hle hlt
      have hg : ¬ sqrtGT (popVar (l.drop (l.length - 20))) (2/5) = true := by
        rw [hGT]; exact not_lt.mpr hle
      rw [hfun, if_neg hg, if_pos (hLT.mpr hlt)]
    · intro h1 h2
      have hg : ¬ sqrtGT (popVar (l.drop (l.length - 20))) (2/5) = true := by
        rw [hGT]; exact not_lt.mpr h2
      have hl : ¬ sqrtLT (popVar (l.drop (l.length - 20))) (1/10) = true := by
        rw [hLT]; exact not_lt.mpr h1
      rw [hfun, if_neg hg, if_neg hl]

/-- Witness for claim C7's theorem at the 20-point fixture with standard
deviation exactly 0.05 (variance 1/400): the 1.2 branch fires. -/
theorem volatility_adjustment_cases_witness :
    get_volatility_adjustment pnl20 20 (2/5) = 6/5 := by
  have hvar : popVar (pnl20.drop (pnl20.length - 20)) = 1/400 := by
    norm_num [pnl20, popVar, listMean, List.replicate]
  have hσ : Real.sqrt ((popVar (pnl20.drop (pnl20.length - 20)) : Rat) : ℝ) =
      1/20 := by
    rw [hvar]
    have hcast : (((1:Rat)/400 : Rat) : ℝ) = ((1:ℝ)/20)^2 := by norm_num
    rw [hcast, Real.sqrt_sq (by norm_num)]
  exact ((volatility_adjustment_cases pnl20).2 (by norm_num [pnl20])).2.1
    (by rw [hσ]; norm_num) (by rw [hσ]; norm_num)

/-! ### Claim C2 -/

/-- Claim C2: the full exit check returns true only when BOTH
days-to-expiry ≤ 14 AND `|delta|` lies outside `[target_delta_min,
target_delta_max]` — so it never fires with DTE > 14 (any delta) nor with
`|delta|` in range (any DTE); and the components-package variant never
returns true at all (its decision logic is an unimplemented TODO). -/
theorem exit_rule_needs_both_conditions
    (has_contract invested : Bool) (dte : Int) (delta mn mx : Rat)
    (h : should_close_position has_contract invested dte delta mn mx = true)
    (hc2 ic2 : Bool) (dte2 : Int) (delta2 : Rat) :
    (dte ≤ 14 ∧ (|delta| < mn ∨ mx < |delta|)) ∧
    components_should_close_position hc2 ic2 dte2 delta2 = false := by
  constructor
  · cases has_contract with
    | false => simp [should_close_position] at h
    | true =>
      cases invested with
      | false => simp [should_close_position] at h
      | true => simpa [should_close_position] using h
  · cases hc2 <;> cases ic2 <;> simp [components_should_close_position]

/-- Witness for claim C2's theorem: an invested position at DTE 7 with
`|delta| = 0.1` below the range `[0.25, 0.75]` does fire the exit rule. -/
theorem exit_rule_needs_both_conditions_witness :
    (((7:Int) ≤ 14 ∧ (|(1:Rat)/10| < 1/4 ∨ (3:Rat)/4 < |(1:Rat)/10|)) ∧
      components_should_close_position true true 30 (1/2) = false) :=
  exit_rule_needs_both_conditions true true 7 (1/10) (1/4) (3/4)
    (by
      have habs : |(1:Rat)/10| = 1/10 := abs_of_nonneg (by norm_num)
      norm_num [should_close_position, habs])
    true true 30 (1/2)

/-! ### Claim C9 -/

theorem updateLast_concat (f : TradeRecord → TradeRecord)
    (l : List TradeRecord) (t : TradeRecord) :
    updateLast f (l ++ [t]) = l ++ [f t] := by
  induction l with
  | nil => rfl
  | cons a l ih =>
    cases l with
    | nil => rfl
    | cons b l2 => exact congrArg (a :: ·) ih

/-- Claim C9: opening a position at entry fill `E` with order quantity `q`
and then closing it at exit fill `X` while the account holds signed
quantity `Q` of the contract records realized PnL `(E − X) × Q × 100` onto
the existing trade record (setting its exit price and exit date, appending
no new record), adds that PnL to the asset's cumulative `profit_loss`, and
reverts the asset to FLAT by clearing the current-contract pointer. -/
theorem open_close_round_trip (s : StockMgrState) (c : Contract) (d1 d2 : Int)
    (E X : Rat) (q Q : Int) (dlt up : Rat) :
    (close_position (open_position s c d1 E q dlt up) true Q X d2).current_contract
        = none ∧
    (close_position (open_position s c d1 E q dlt up) true Q X d2).profit_loss =
      s.profit_loss + (E - X) * (Q : Rat) * 100 ∧
    (close_position (open_position s c d1 E q dlt up) true Q X d2).trades.length =
      (open_position s c d1 E q dlt up).trades.length ∧
    (close_position (open_position s c d1 E q dlt up) true Q X d2).trades.getLast? =
      some { date := d1, symbol := c.symbol, strike := c.strike, expiry := c.expiry,
             quantity := q, price := E, delta := dlt, underlying_price := up,
             exit_price := some X, pnl := some ((E - X) * (Q : Rat) * 100),
             exit_date := some d2 } := by
  refine ⟨?_, ?_, ?_, ?_⟩ <;>
    simp [open_position, close_position, List.getLast?_concat, updateLast_concat]

/-! ### Claim C1: lemmas on the descending sort -/

theorem insertDesc_ne_nil (p : StockState × Rat) (l : List (StockState × Rat)) :
    insertDesc p l ≠ [] := by
  cases l with
  | nil => simp [insertDesc]
  | cons q qs =>
    simp only [insertDesc]
    split <;> simp

theorem sortDesc_eq_nil_iff (l : List (StockState × Rat)) :
    sortDesc l = [] ↔ l = [] := by
  cases l with
  | nil => simp [sortDesc]
  | cons p ps =>
    simp only [sortDesc]
    exact ⟨fun h => absurd h (insertDesc_ne_nil _ _), fun h => by simp at h⟩

theorem insertDesc_head (p q : StockState × Rat) (qs : List (StockState × Rat)) :
    (insertDesc p (q :: qs)).head? = some (if q.2 ≤ p.2 then p else q) := by
  simp only [insertDesc]
  split <;> rfl

/-- The head of the stable descending sort is a member of the list and has a
maximal score. -/
theorem sortDesc_head_spec :
    ∀ (l : List (StockState × Rat)) (b : StockState × Rat),
      (sortDesc l).head? = some b → b ∈ l ∧ ∀ q ∈ l, q.2 ≤ b.2 := by
  intro l
  induction l with
  | nil => intro b h; simp [sortDesc] at h
  | cons p ps ih =>
    intro b h
    simp only [sortDesc] at h
    cases hps : sortDesc ps with
    | nil =>
      have hps' : ps = [] := (sortDesc_eq_nil_iff ps).mp hps
      rw [hps] at h
      simp only [insertDesc, List.head?_cons, Option.some.injEq] at h
      subst h
      subst hps'
      exact ⟨List.mem_cons_self _ _, by simp⟩
    | cons q0 rest =>
      rw [hps] at h
      rw [insertDesc_head] at h
      obtain ⟨hq0mem, hq0max⟩ := ih q0 (by rw [hps]; rfl)
      by_cases hle : q0.2 ≤ p.2
      · rw [if_pos hle] at h
        have hb : b = p := ((Option.some.injEq _ _).mp h).symm
        subst hb
        refine ⟨List.mem_cons_self _ _, fun q hq => ?_⟩
        rcases List.mem_cons.mp hq with rfl | hq'
        · exact le_refl _
        · exact le_trans (hq0max q hq') hle
      · rw [if_neg hle] at h
        have hb : b = q0 := ((Option.some.injEq _ _).mp h).symm
        subst hb
        push_neg at hle
        refine ⟨List.mem_cons_of_mem _ hq0mem, fun q hq => ?_⟩
        rcases List.mem_cons.mp hq with rfl | hq'
        · exact le_of_lt hle
        · exact hq0max q hq'

/-- Characterization of membership in the collected opportunities. -/
theorem opportunities_mem {stocks : List StockState} {b : StockState × Rat}
    (hb : b ∈ opportunities stocks) :
    b.1 ∈ stocks ∧ b.1.should_trade = true ∧
      0 < calculate_opportunity_score b.1 ∧ b.2 = calculate_opportunity_score b.1 := by
  obtain ⟨u, hu, heq⟩ := List.mem_filterMap.mp hb
  by_cases hcond : u.should_trade = true ∧ 0 < calculate_opportunity_score u
  · rw [if_pos (by simp [hcond.1, hcond.2])] at heq
    obtain rfl := Option.some.injEq _ _ |>.mp heq
    exact ⟨hu, hcond.1, hcond.2, rfl⟩
  · rw [if_neg (by
      intro hc
      exact hcond ⟨by simpa using (Bool.and_eq_true _ _).mp hc |>.1,
        by simpa using (Bool.and_eq_true _ _).mp hc |>.2⟩)] at heq
    exact absurd heq (by simp)

theorem opportunities_mem_of (stocks : List StockState) (t : StockState)
    (ht : t ∈ stocks) (h1 : t.should_trade = true)
    (h2 : 0 < calculate_opportunity_score t) :
    (t, calculate_opportunity_score t) ∈ opportunities stocks :=
  List.mem_filterMap.mpr ⟨t, ht, by rw [if_pos (by simp [h1, h2])]⟩

/-- What `_find_best_trading_opportunity` returns: an eligible member of the
list whose opportunity score is maximal among all eligible stocks. -/
theorem find_best_spec (stocks : List StockState) (s : StockState)
    (h : find_best_trading_opportunity stocks = some s) :
    s ∈ stocks ∧ s.should_trade = true ∧ 0 < calculate_opportunity_score s ∧
    ∀ t ∈ stocks, t.should_trade = true → 0 < calculate_opportunity_score t →
      calculate_opportunity_score t ≤ calculate_opportunity_score s := by
  simp only [find_best_trading_opportunity, Option.map_eq_some'] at h
  obtain ⟨b, hb, rfl⟩ := h
  obtain ⟨hmem, hmax⟩ := sortDesc_head_spec _ b hb
  obtain ⟨hbs, hbt, hbpos, hbscore⟩ := opportunities_mem hmem
  refine ⟨hbs, hbt, hbpos, fun t ht h1 h2 => ?_⟩
  have := hmax (t, calculate_opportunity_score t) (opportunities_mem_of stocks t ht h1 h2)
  rw [hbscore] at this
  exact this

/-- Claim C1: in a tick where the portfolio admission check passes and at
least two distinct assets are simultaneously eligible (each passes its
per-asset `should_trade` guard with a positive opportunity score), the entry
pipeline is invoked for EXACTLY ONE asset: an eligible asset of maximal
opportunity score; in particular when one eligible asset's score is strictly
highest, that asset is the one entered, and ties are broken
deterministically by the stable sort. -/
theorem single_entry_highest_score (p : PortfolioState) (stocks : List StockState)
    (hport : should_trade_portfolio p stocks = true)
    (s₁ s₂ : StockState) (h1 : s₁ ∈ stocks) (h2 : s₂ ∈ stocks) (hne : s₁ ≠ s₂)
    (helig1 : s₁.should_trade = true ∧ 0 < calculate_opportunity_score s₁)
    (helig2 : s₂.should_trade = true ∧ 0 < calculate_opportunity_score s₂) :
    ∃ s, manage_positions_entries p stocks = [s] ∧
      s ∈ stocks ∧ s.should_trade = true ∧ 0 < calculate_opportunity_score s ∧
      (∀ t ∈ stocks, t.should_trade = true → 0 < calculate_opportunity_score t →
        calculate_opportunity_score t ≤ calculate_opportunity_score s) ∧
      (∀ t ∈ stocks, t.should_trade = true → 0 < calculate_opportunity_score t →
        (∀ u ∈ stocks, u.should_trade = true → 0 < calculate_opportunity_score u →
          u ≠ t → calculate_opportunity_score u < calculate_opportunity_score t) →
        s = t) := by
  have hopp : (s₁, calculate_opportunity_score s₁) ∈ opportunities stocks :=
    opportunities_mem_of stocks s₁ h1 helig1.1 helig1.2
  have hsne : sortDesc (opportunities stocks) ≠ [] := by
    rw [Ne, sortDesc_eq_nil_iff]
    exact List.ne_nil_of_mem hopp
  cases hhead : (sortDesc (opportunities stocks)).head? with
  | none => exact absurd (List.head?_eq_none_iff.mp hhead) hsne
  | some b =>
    have hfind : find_best_trading_opportunity stocks = some b.1 := by
      simp [find_best_trading_opportunity, hhead]
    obtain ⟨hbs, hbt, hbpos, hbmax⟩ := find_best_spec stocks b.1 hfind
    refine ⟨b.1, ?_, hbs, hbt, hbpos, hbmax, ?_⟩
    · simp [manage_positions_entries, hport, hfind]
    · intro t ht h1t h2t hstrict
      by_contra hneq
      exact absurd (hbmax t ht h1t h2t)
        (not_le.mpr (hstrict b.1 hbs hbt hbpos hneq))

/-- An enabled, flat, untraded asset with weight 0.5 and no data history
(score 5). -/
def stockA : StockState :=
  { ticker := "AAPL", enabled := true, has_current_contract := false,
    contract_invested := false, traded_today := false, underlying_quantity := 0,
    risk_stop := false, weight := 1/2, price_history := [],
    has_latest_slice := false }

/-- Like `stockA` but with weight 1 (score 10). -/
def stockB : StockState := { stockA with ticker := "MSFT", weight := 1 }

/-- A healthy portfolio: at its peak, no PnL history, no open positions,
concurrency cap 3. -/
def portOK : PortfolioState :=
  { current_value := 100000, peak_value := 100000, max_drawdown := 3/20,
    max_portfolio_risk := 1/50, daily_portfolio_pnl := [], max_stocks := 3 }

/-- Witness for claim C1's theorem: two eligible assets with scores 5 and
10; exactly one entry is attempted. -/
theorem single_entry_highest_score_witness :
    ∃ s, manage_positions_entries portOK [stockA, stockB] = [s] ∧
      s ∈ [stockA, stockB] ∧ s.should_trade = true ∧
      0 < calculate_opportunity_score s ∧
      (∀ t ∈ [stockA, stockB], t.should_trade = true →
        0 < calculate_opportunity_score t →
        calculate_opportunity_score t ≤ calculate_opportunity_score s) ∧
      (∀ t ∈ [stockA, stockB], t.should_trade = true →
        0 < calculate_opportunity_score t →
        (∀ u ∈ [stockA, stockB], u.should_trade = true →
          0 < calculate_opportunity_score u →
          u ≠ t → calculate_opportunity_score u < calculate_opportunity_score t) →
        s = t) :=
  single_entry_highest_score portOK [stockA, stockB]
    (by norm_num [should_trade_portfolio, check_portfolio_risk_limits,
      check_drawdown_limit, check_portfolio_volatility, count_open_positions,
      portOK, stockA, stockB])
    stockA stockB (by simp) (by simp) (by simp [stockA, stockB])
    ⟨by simp [StockState.should_trade, stockA],
     by norm_num [calculate_opportunity_score, stockA]⟩
    ⟨by simp [StockState.should_trade, stockB, stockA],
     by norm_num [calculate_opportunity_score, stockB, stockA]⟩

end QC
